import Mathlib

/-!
Verification development for the investments-calculator repository.

The computational core present in the sources consists of two VBA macros:

* `ComputeFIFO_Fast` (Module2, `src/unnamed/part_008`): per-ticker FIFO
  lot tracking computing a realized P/L cell for each SELL row;
* `SummarizeTaxByYearAndCategory` (`src/Module1.bas`): per-year,
  per-category netting and flat-rate tax computation.

Both are embedded below as pure functions over exact rationals (VBA
`Double` arithmetic is modelled by `ℚ`; the tolerance constant
`0.000001` and the rate literals are carried over as exact rationals).
The deemed-disposal scheduler that the spec describes has no
implementation under the sources, so it is modelled from the spec where
needed.
-/

set_option maxRecDepth 100000

namespace InvestCalc

/-- One open lot held for a ticker: remaining quantity and per-share
cost, mirroring the two-element `Array(qty, costPerShare)` stored in the
macro's per-ticker `Collection`. -/
structure Lot where
  qty : ℚ
  cost : ℚ
deriving DecidableEq

/-- One sheet row of the `Transactions` worksheet as read by
`ComputeFIFO_Fast`: transaction type (column C), ticker (column D),
quantity (column J), unit price (column F), commission (column G) and
total value (column H). -/
structure Row where
  trType : String
  ticker : String
  qty : ℚ
  price : ℚ
  comm : ℚ
  totalVal : ℚ
deriving DecidableEq

/-- The value the macro writes into the result column for one row:
an empty cell, the constant error string
(the literal text is `#ERROR: Not enough shares`), or a number. -/
inductive RCell where
  | empty : RCell
  | err : RCell
  | num : ℚ → RCell
deriving DecidableEq

/-- ASCII upper-casing of one character (VBA `UCase`). -/
def upChar (c : Char) : Char :=
  if 'a' ≤ c ∧ c ≤ 'z' then Char.ofNat (c.toNat - 32) else c

/-- Strip leading and trailing spaces (VBA `Trim`). -/
def trimSpaces (cs : List Char) : List Char :=
  ((cs.dropWhile (· = ' ')).reverse.dropWhile (· = ' ')).reverse

/-- The macro's normalisation `UCase(Trim(CStr(...)))` applied to the
type and ticker cells. -/
def normKey (s : String) : String :=
  String.mk ((trimSpaces s.data).map upChar)

/-- The per-ticker lot dictionary (`Scripting.Dictionary` of
`Collection`s); a ticker that was never added holds no lots, matching
the freshly added empty `Collection`. -/
def Dict : Type := String → List Lot

/-- The empty dictionary at macro start. -/
def emptyDict : Dict := fun _ => []

/-- Replace the lot list stored for one ticker. -/
def updateD (d : Dict) (t : String) (lots : List Lot) : Dict :=
  fun s => if s = t then lots else d s

/-- `totalShares`: the sum of remaining quantities over a lot list
(the macro's first `For j` loop on a SELL row). -/
def lotSum (lots : List Lot) : ℚ :=
  (lots.map Lot.qty).sum

/-- Floor of a rational, via flooring integer division. -/
def floorQ (x : ℚ) : Int :=
  Int.fdiv x.num x.den

/-- Round to the nearest integer, ties to the even neighbour
(VBA's `Round` uses banker's rounding). -/
def roundHalfEven (x : ℚ) : Int :=
  let n := floorQ x
  let frac := x - (n : ℚ)
  if frac < 1/2 then n
  else if 1/2 < frac then n + 1
  else if n % 2 = 0 then n else n + 1

/-- `Round(x, 2)`: banker's rounding to two decimal places. -/
def round2 (x : ℚ) : ℚ :=
  (roundHalfEven (x * 100) : ℚ) / 100

/-- The macro's SELL consumption loop
(`Do While remainingQty > 0 And lotList.Count > 0`), returning the
accumulated `realizedPL`, the lot list that remains STORED in the
dictionary's collection after the loop, and the final `remainingQty`.

Faithfulness note on the stored list: inside the loop, full-lot
consumption calls `lotList.Remove 1`, which mutates the very
`Collection` object held by `dict(ticker)`, so those removals persist.
The partial-consumption branch instead builds a fresh `tempLots`
collection with the reduced head and executes `Set lotList = tempLots`,
which only rebinds the local variable — `dict(ticker)` is never
reassigned, so the partially consumed head lot remains stored at its
full quantity. The loop then ends (`remainingQty = 0`), hence the
stored list returned here keeps the unreduced head in that branch,
while `realizedPL` is still accumulated over the requested quantity. -/
def sellLoop (price : ℚ) : List Lot → ℚ → ℚ × List Lot × ℚ
  | [], r => (0, [], r)
  | l :: ls, r =>
    if r ≤ 0 then (0, l :: ls, r)
    else if l.qty > r then ((price - l.cost) * r, l :: ls, 0)
    else
      let rest := sellLoop price ls (r - l.qty)
      ((price - l.cost) * l.qty + rest.1, rest.2.1, rest.2.2)

/-- Processing of one sheet row by `ComputeFIFO_Fast` (the
`Select Case trType` body), returning the updated dictionary and the
result cell written for the row.  `BUY` appends a lot with per-share
cost `price + comm / qty` (or `price` when `qty = 0`); `SELL` first
checks `totalShares + 0.000001 < Abs(qty)` and writes the constant
error cell without touching the lots if it holds, and otherwise runs
the consumption loop and writes `Round(realizedPL - comm, 2)`;
`DIVIDEND`/`INTEREST` echo the row's total value; `DEPOSIT` writes 0;
any other type leaves the cell empty. -/
def step (d : Dict) (row : Row) : Dict × RCell :=
  let trType := normKey row.trType
  let ticker := normKey row.ticker
  if trType = "BUY" then
    let costPerShare := if row.qty ≠ 0 then row.price + row.comm / row.qty else row.price
    (updateD d ticker (d ticker ++ [⟨row.qty, costPerShare⟩]), RCell.empty)
  else if trType = "SELL" then
    let lots := d ticker
    if lotSum lots + 1/1000000 < |row.qty| then (d, RCell.err)
    else
      let res := sellLoop row.price lots (|row.qty|)
      (updateD d ticker res.2.1, RCell.num (round2 (res.1 - row.comm)))
  else if trType = "DIVIDEND" ∨ trType = "INTEREST" then (d, RCell.num row.totalVal)
  else if trType = "DEPOSIT" then (d, RCell.num 0)
  else (d, RCell.empty)

/-- Fold `step` over the rows from a given dictionary, collecting the
result cells in row order (the macro's `For i` loop). -/
def runAux (d : Dict) : List Row → Dict × List RCell
  | [] => (d, [])
  | row :: rows =>
    let s := step d row
    let rest := runAux s.1 rows
    (rest.1, s.2 :: rest.2)

/-- Run the macro on the whole sheet, starting from the empty
dictionary. -/
def runRows (rows : List Row) : Dict × List RCell :=
  runAux emptyDict rows

/-- The result column the macro writes back (`results`). -/
def resultsOf (rows : List Row) : List RCell :=
  (runRows rows).2

/-- The lots still stored for a ticker after the macro has processed
all rows. -/
def finalLots (rows : List Row) (t : String) : List Lot :=
  (runRows rows).1 t

/-- Total quantity bought for a ticker across the sheet (sum of BUY-row
quantities after the macro's key normalisation). -/
def boughtTotal (rows : List Row) (t : String) : ℚ :=
  ((rows.filter (fun r => normKey r.trType = "BUY" ∧ normKey r.ticker = t)).map Row.qty).sum

/-! ### `SummarizeTaxByYearAndCategory` (`src/Module1.bas`)

The macro reads the `Tax` sheet (column A: date, column B: asset
class, column D: realized P/L), accumulates the P/L per calendar year
and per category for the four known categories
`STOCK`/`ETF`/`DIVIDEND`/`DEPOSIT` (rows whose date cell is not a date
are skipped; rows with any other category are dropped), and then for
each year computes taxable amounts and taxes per category.  The spec
maps `STANDARD_CGT` to the `STOCK` category and `EXIT_TAX` to the
`ETF` category. -/

/-- One row of the `Tax` sheet: whether the date cell parses as a date
(`IsDate`), the date's calendar year (`Year(dDate)`, the only part of
the date the macro uses), the raw category cell and the realized P/L. -/
structure TaxRow where
  hasDate : Bool
  year : Int
  cat : String
  pnl : ℚ
deriving DecidableEq

/-- Whether a `Tax`-sheet row is counted into the bucket of year `y`
and category `c`: its date cell is a date, its year is `y` and its
normalised category is `c`. -/
def rowMatches (y : Int) (c : String) (r : TaxRow) : Bool :=
  r.hasDate && r.year == y && normKey r.cat == c

/-- The per-year, per-category accumulated P/L: the sum of column D
over the rows with a date, the given year and the given (normalised)
category. -/
def netCat (rows : List TaxRow) (y : Int) (c : String) : ℚ :=
  ((rows.filter (rowMatches y c)).map TaxRow.pnl).sum

/-- The output row the macro writes for one year (columns H through R). -/
structure YearSummary where
  stockIncome : ℚ
  etfIncome : ℚ
  divIncome : ℚ
  depIncome : ℚ
  stockTaxable : ℚ
  stockTax : ℚ
  etfTaxable : ℚ
  etfTax : ℚ
  divTaxable : ℚ
  divTax : ℚ
  depTaxable : ℚ
  depTax : ℚ
  totalIncome : ℚ
  totalTax : ℚ
deriving DecidableEq

/-- The macro's per-year computation: `STOCK` (the CGT regime) gets
`Max(0, net − 1270)` when the net is positive and `0` otherwise, taxed
at 33%; `ETF` (the Exit-Tax regime) gets `Max(0, net)` taxed at 41%;
`DIVIDEND` gets `Max(0, net)` taxed at 40%; `DEPOSIT` gets
`Max(0, net)` taxed at 33%; every tax is rounded to 2 decimals and all
four are summed into the total tax. -/
def summarizeYear (rows : List TaxRow) (y : Int) : YearSummary :=
  let netStock := netCat rows y "STOCK"
  let netETF := netCat rows y "ETF"
  let netDiv := netCat rows y "DIVIDEND"
  let netDep := netCat rows y "DEPOSIT"
  let taxableStock := if netStock > 0 then max 0 (netStock - 1270) else 0
  let taxStock := round2 (taxableStock * (33/100))
  let taxableETF := max 0 netETF
  let taxETF := round2 (taxableETF * (41/100))
  let taxableDiv := max 0 netDiv
  let taxDiv := round2 (taxableDiv * (40/100))
  let taxableDep := max 0 netDep
  let taxDep := round2 (taxableDep * (33/100))
  { stockIncome := netStock
    etfIncome := netETF
    divIncome := netDiv
    depIncome := netDep
    stockTaxable := taxableStock
    stockTax := taxStock
    etfTaxable := taxableETF
    etfTax := taxETF
    divTaxable := taxableDiv
    divTax := taxDiv
    depTaxable := taxableDep
    depTax := taxDep
    totalIncome := netStock + netETF + netDiv + netDep
    totalTax := taxStock + taxETF + taxDiv + taxDep }

/-- The CGT taxable formula in the spec's words
(`max(0, net_gain − carryforward_losses − min(annual_exemption,
remaining_net))` with the €1,270 exemption applied only to a remaining
positive net), stated for comparison with the macro's `taxableStock`. -/
def specCgtTaxable (net cf : ℚ) : ℚ :=
  max 0 (net - cf - min 1270 (max (net - cf) 0))

/-! ### Deemed Disposal Scheduler (modelled from the spec)

No deemed-disposal scheduler exists under the sources (the frontend
only calls a `getDeemedDisposals` API of an absent backend), so this
component is modelled from the spec, §4.3. -/

/-- Modelled from the spec: a calendar date (year, month, day); the
deemed-disposal scheduler the spec describes is absent from the
sources, so dates and the scheduler below follow the spec's words. -/
structure SDate where
  y : Int
  m : Nat
  d : Nat
deriving DecidableEq

/-- Modelled from the spec: add a number of years to a date, keeping
month and day (used for `deemed_disposal_date = acquisition_date +
8 years`). -/
def addYears (n : Int) (dt : SDate) : SDate :=
  ⟨dt.y + n, dt.m, dt.d⟩

/-- Chronological order on dates (year, then month, then day). -/
def sdLe (a b : SDate) : Bool :=
  a.y < b.y ∨ (a.y = b.y ∧ (a.m < b.m ∨ (a.m = b.m ∧ a.d ≤ b.d)))

/-- Modelled from the spec: an open Exit-Tax lot — acquisition date,
quantity and total cost basis. -/
structure ETLot where
  acq : SDate
  qty : ℚ
  cost : ℚ
deriving DecidableEq

/-- Modelled from the spec: one synthesized deemed disposal — its
statutory date and the gain realized at the caller-supplied market
value. -/
structure Deemed where
  date : SDate
  gain : ℚ
deriving DecidableEq

/-- Modelled from the spec, §4.3: repeatedly, while the lot's deemed
disposal date (`acquisition_date + 8 years`) is not after the
evaluation date, synthesize a deemed disposal at that date at the
supplied unit market value `mv` (gain = market value of the holding
minus the carried cost basis) and reset the lot's acquisition date to
the deemed-disposal date.  The `fuel` argument only bounds the
recursion; `runScheduler` supplies enough of it for all due cycles. -/
def schedAux (e : SDate) (mv : ℚ) : Nat → ETLot → List Deemed × ETLot
  | 0, lot => ([], lot)
  | n + 1, lot =>
    let dd := addYears 8 lot.acq
    if sdLe dd e then
      let rest := schedAux e mv n { lot with acq := dd }
      (⟨dd, mv * lot.qty - lot.cost⟩ :: rest.1, rest.2)
    else ([], lot)

/-- Modelled from the spec: the deemed-disposal scheduler for one lot
and one evaluation date — applies every 8-year cycle whose date has
passed and returns the synthesized disposals and the updated lot. -/
def runScheduler (e : SDate) (mv : ℚ) (lot : ETLot) : List Deemed × ETLot :=
  schedAux e mv (e.y + 8 - lot.acq.y).toNat lot

/-! ### Helper lemmas -/

/-- Running the macro over `xs ++ ys` processes `xs` first and
continues over `ys` from the resulting dictionary, with the result
cells concatenated in order. -/
lemma runAux_append : ∀ (xs ys : List Row) (d : Dict),
    runAux d (xs ++ ys)
      = ((runAux (runAux d xs).1 ys).1,
         (runAux d xs).2 ++ (runAux (runAux d xs).1 ys).2) := by
  intro xs
  induction xs with
  | nil => intro ys d; simp [runAux]
  | cons r rs ih => intro ys d; simp [runAux, ih]

/-- One result cell is produced per processed row. -/
lemma runAux_len : ∀ (xs : List Row) (d : Dict),
    ((runAux d xs).2).length = xs.length := by
  intro xs
  induction xs with
  | nil => intro d; rfl
  | cons r rs ih => intro d; simp [runAux, ih]

/-- The lot list a SELL leaves stored is always a tail of the stored
list: consumption only ever takes lots from the front (oldest first),
never reorders and never reaches past the consumed front segment. -/
lemma sellLoop_stored (price : ℚ) : ∀ (lots : List Lot) (r : ℚ),
    ∃ k, k ≤ lots.length ∧ (sellLoop price lots r).2.1 = lots.drop k := by
  intro lots
  induction lots with
  | nil => intro r; exact ⟨0, by simp, by simp [sellLoop]⟩
  | cons l ls ih =>
    intro r
    by_cases h1 : r ≤ 0
    · exact ⟨0, by simp, by simp [sellLoop, h1]⟩
    · by_cases h2 : l.qty > r
      · exact ⟨0, by simp, by simp [sellLoop, h1, h2]⟩
      · obtain ⟨k, hk, he⟩ := ih (r - l.qty)
        exact ⟨k + 1, by simpa using hk, by simp [sellLoop, h1, h2, he]⟩

/-- Splitting the lot sum at the head. -/
lemma lotSum_cons (l : Lot) (ls : List Lot) :
    lotSum (l :: ls) = l.qty + lotSum ls := by
  simp [lotSum]

/-- A lot list of positive quantities has a non-negative sum. -/
lemma lotSum_nonneg : ∀ (ls : List Lot), (∀ l ∈ ls, 0 < l.qty) → 0 ≤ lotSum ls := by
  intro ls h
  refine List.sum_nonneg ?_
  intro x hx
  obtain ⟨l, hl, rfl⟩ := List.mem_map.mp hx
  exact le_of_lt (h l hl)

/-- When the requested quantity strictly exceeds the total stored
quantity (and every stored lot is positive), the consumption loop
consumes every lot in full: the realized P/L covers exactly the stored
quantity, the stored list is emptied, and the surplus of the request
is left over. -/
lemma sellLoop_exhaust (price : ℚ) : ∀ (lots : List Lot) (r : ℚ),
    (∀ l ∈ lots, 0 < l.qty) → lotSum lots < r →
    sellLoop price lots r
      = ((lots.map fun l => (price - l.cost) * l.qty).sum, [], r - lotSum lots) := by
  intro lots
  induction lots with
  | nil => intro r _ hlt; simp [sellLoop, lotSum]
  | cons l ls ih =>
    intro r hpos hlt
    have hlq : 0 < l.qty := hpos l (List.mem_cons_self l ls)
    have hnn : 0 ≤ lotSum ls := lotSum_nonneg ls fun x hx => hpos x (List.mem_cons_of_mem l hx)
    rw [lotSum_cons] at hlt
    have h1 : ¬ r ≤ 0 := by linarith
    have h2 : ¬ l.qty > r := by linarith
    have ih' := ih (r - l.qty) (fun x hx => hpos x (List.mem_cons_of_mem l hx)) (by linarith)
    simp only [sellLoop, h1, h2, if_false, ih', lotSum_cons]
    simp only [List.map_cons, List.sum_cons, Prod.mk.injEq]
    refine ⟨trivial, trivial, by ring⟩


/-- Pre-filtering the rows by any predicate that holds on every row of
the (year, category) bucket leaves the bucket's net unchanged. -/
lemma netCat_filter (p : TaxRow → Bool) (y : Int) (c : String)
    (h : ∀ r : TaxRow, rowMatches y c r = true → p r = true) :
    ∀ rows : List TaxRow, netCat (rows.filter p) y c = netCat rows y c := by
  intro rows
  unfold netCat
  have he : rows.filter (fun a => rowMatches y c a && p a) = rows.filter (rowMatches y c) := by
    apply List.filter_congr
    intro a _
    cases hm : rowMatches y c a with
    | true => simp [h a hm]
    | false => simp
  rw [List.filter_filter, he]

/-- The macro's `taxableStock` agrees with the spec's CGT-taxable
formula at carried-forward losses fixed to zero. -/
lemma cgtTaxable_eq_spec (net : ℚ) :
    (if net > 0 then max 0 (net - 1270) else 0) = specCgtTaxable net 0 := by
  unfold specCgtTaxable
  rcases le_or_lt net 0 with h | h <;> rcases le_or_lt net 1270 with h2 | h2 <;>
    simp [max_def, min_def] <;> split_ifs <;> linarith

/-! ### Claim theorems -/

/-- C1, counterexample.  The claim asserts the statutory STANDARD_CGT
matching order (same-day, then 28-day bed-and-breakfast look-ahead,
then FIFO), in particular that a BUY dated strictly within 28 days
after a SELL of the same asset supplies that SELL's cost basis before
any older FIFO lot is touched.  On the spec's own §8 scenario (buy 50
at 20, sell 50 at 10, buy 50 at 12 within 28 days) the engine matches
the SELL against the older lot — realized P/L −500 instead of the
−100 the bed-and-breakfast match would give — and afterwards the
repurchase lot is the only one still open, i.e. the older lot was
fully consumed.  (`ComputeFIFO_Fast` never reads the date column at
all.) -/
theorem C1_counterexample :
    resultsOf [⟨"BUY", "A", 50, 20, 0, 0⟩, ⟨"SELL", "A", 50, 10, 0, 0⟩,
        ⟨"BUY", "A", 50, 12, 0, 0⟩]
      = [RCell.empty, RCell.num (-500), RCell.empty] ∧
    finalLots [⟨"BUY", "A", 50, 20, 0, 0⟩, ⟨"SELL", "A", 50, 10, 0, 0⟩,
        ⟨"BUY", "A", 50, 12, 0, 0⟩] "A"
      = [⟨50, 12⟩] ∧
    round2 ((10 - 12) * 50 - 0) = -100 ∧ decide ((-500 : ℚ) = -100) = false := by
  refine ⟨?_, ?_, ?_, ?_⟩ <;> with_unfolding_all decide

/-- C1, amended: the engine matches every SELL in strict FIFO order
against the lots already stored when the SELL row is reached; there is
no same-day and no 28-day look-ahead, so rows after a SELL (in
particular later BUYs) can never affect that SELL's result — the
result cells of a sheet prefix are unchanged by any continuation — and
a SELL only ever consumes a front segment of the stored (oldest-first)
lot list. -/
theorem C1_fifo_no_lookahead :
    (∀ xs ys : List Row, ((runRows (xs ++ ys)).2).take xs.length = (runRows xs).2) ∧
    (∀ (price : ℚ) (lots : List Lot) (r : ℚ),
      ∃ k, k ≤ lots.length ∧ (sellLoop price lots r).2.1 = lots.drop k) := by
  constructor
  · intro xs ys
    show ((runAux emptyDict (xs ++ ys)).2).take xs.length = (runAux emptyDict xs).2
    rw [runAux_append, ← runAux_len xs emptyDict]
    exact List.take_left _ _
  · exact fun price lots r => sellLoop_stored price lots r

/-- C2, counterexample.  The claim asserts an `InsufficientLotsError`
carrying the asset identifier, sale date, requested quantity and
available quantity.  The engine writes one and the same constant error
cell (the literal string `#ERROR: Not enough shares`) in the spec's
scenario requested=10/available=8 and in a second scenario
requested=100/available=3 — a value identical across different assets,
quantities and availabilities carries none of those fields (the sheet
rows read by the macro carry no date at all).  The stored lots are
left untouched (no clamped disposal), which is the only part of the
claim the code does satisfy. -/
theorem C2_counterexample :
    resultsOf [⟨"BUY", "A", 8, 5, 0, 0⟩, ⟨"SELL", "A", 10, 6, 0, 0⟩]
      = [RCell.empty, RCell.err] ∧
    resultsOf [⟨"BUY", "B", 3, 5, 0, 0⟩, ⟨"SELL", "B", 100, 6, 0, 0⟩]
      = [RCell.empty, RCell.err] ∧
    finalLots [⟨"BUY", "A", 8, 5, 0, 0⟩, ⟨"SELL", "A", 10, 6, 0, 0⟩] "A" = [⟨8, 5⟩] := by
  refine ⟨?_, ?_, ?_⟩ <;> with_unfolding_all decide

/-- C2, amended: for every SELL whose requested quantity exceeds the
total open quantity by more than the 0.000001 tolerance, the engine
writes the constant error cell (the string
`#ERROR: Not enough shares`, carrying no asset/date/requested/available
data) and leaves the whole lot dictionary unchanged — the disposal is
not clamped. -/
theorem C2_insufficient_error :
    ∀ (d : Dict) (row : Row), normKey row.trType = "SELL" →
      lotSum (d (normKey row.ticker)) + 1/1000000 < |row.qty| →
      step d row = (d, RCell.err) := by
  intro d row h1 h2
  simp only [step, h1]
  rw [if_neg (by decide), if_pos trivial, if_pos h2]

/-- C2, witness for `C2_insufficient_error` at requested = 10,
available = 8. -/
theorem C2_insufficient_error_witness :
    normKey "SELL" = "SELL" ∧
    lotSum ((fun _ => [(⟨8, 5⟩ : Lot)] : Dict) (normKey "A")) + 1/1000000 < |(10 : ℚ)| ∧
    step (fun _ => [(⟨8, 5⟩ : Lot)] : Dict) ⟨"SELL", "A", 10, 6, 0, 0⟩
      = ((fun _ => [(⟨8, 5⟩ : Lot)] : Dict), RCell.err) :=
  ⟨by decide, by with_unfolding_all decide,
    C2_insufficient_error (fun _ => [(⟨8, 5⟩ : Lot)] : Dict) ⟨"SELL", "A", 10, 6, 0, 0⟩
      (by decide) (by with_unfolding_all decide)⟩

/-- C6, code bug.  The claim (and spec §8) state the conservation
invariant: consumed quantity plus remaining open quantity equals total
bought quantity.  The code violates it: after buying 100 units at 10
and selling 30 at 20, the realized P/L cell is 300 (so 30 units were
disposed at a gain of 10 each), yet the stored open quantity is still
100 — consumed 30 + remaining 100 = 130 ≠ 100 bought.  The cause is
the macro's partial-consumption branch: it builds the reduced lot list
in a fresh `tempLots` collection and only rebinds the local `lotList`
variable (`Set lotList = tempLots`), never storing it back into
`dict(ticker)`, so the partially consumed lot persists at full
quantity. -/
theorem C6_conservation_violated :
    boughtTotal [⟨"BUY", "A", 100, 10, 0, 0⟩, ⟨"SELL", "A", 30, 20, 0, 0⟩] "A" = 100 ∧
    resultsOf [⟨"BUY", "A", 100, 10, 0, 0⟩, ⟨"SELL", "A", 30, 20, 0, 0⟩]
      = [RCell.empty, RCell.num 300] ∧
    lotSum (finalLots [⟨"BUY", "A", 100, 10, 0, 0⟩, ⟨"SELL", "A", 30, 20, 0, 0⟩] "A") = 100 ∧
    decide ((30 : ℚ) + 100 = 100) = false := by
  refine ⟨?_, ?_, ?_, ?_⟩ <;> with_unfolding_all decide

/-- C7, code bug.  The claim says a partially consumed lot is retained
with its remaining quantity reduced.  After buying 30 at 10 and 50
at 20 and selling 40 at 25, the P/L cell is 500 (the full 30-lot plus
10 units of the 50-lot, oldest first, as claimed), and the fully
consumed oldest lot is indeed removed — but the partially consumed
newer lot remains stored at its full quantity 50 instead of the
reduced 40, because the reduced list built in `tempLots` is never
written back to `dict(ticker)` (`Set lotList = tempLots` only rebinds
the local variable). -/
theorem C7_retention_violated :
    resultsOf [⟨"BUY", "A", 30, 10, 0, 0⟩, ⟨"BUY", "A", 50, 20, 0, 0⟩,
        ⟨"SELL", "A", 40, 25, 0, 0⟩]
      = [RCell.empty, RCell.empty, RCell.num 500] ∧
    finalLots [⟨"BUY", "A", 30, 10, 0, 0⟩, ⟨"BUY", "A", 50, 20, 0, 0⟩,
        ⟨"SELL", "A", 40, 25, 0, 0⟩] "A" = [⟨50, 20⟩] ∧
    decide ([(⟨50, 20⟩ : Lot)] = [(⟨40, 20⟩ : Lot)]) = false := by
  refine ⟨?_, ?_, ?_⟩ <;> with_unfolding_all decide

/-- C10: the insufficient-shares check uses the absolute tolerance
0.000001, so a SELL whose quantity exceeds the total open quantity by
at most 0.000001 raises no error: the loop consumes every stored lot
(provided all stored quantities are positive), the realized P/L is
computed over only the available quantity, and the stored list is
emptied — a silent partial fill at the tolerance boundary. -/
theorem C10_tolerance_fill :
    ∀ (d : Dict) (row : Row), normKey row.trType = "SELL" →
      (∀ l ∈ d (normKey row.ticker), 0 < l.qty) →
      lotSum (d (normKey row.ticker)) < |row.qty| →
      |row.qty| ≤ lotSum (d (normKey row.ticker)) + 1/1000000 →
      step d row
        = (updateD d (normKey row.ticker) [],
           RCell.num (round2
             ((((d (normKey row.ticker)).map fun l => (row.price - l.cost) * l.qty).sum)
               - row.comm))) := by
  intro d row h1 hpos hlt hle
  have hnot : ¬ (lotSum (d (normKey row.ticker)) + 1/1000000 < |row.qty|) := not_lt.mpr hle
  simp only [step, h1]
  rw [if_neg (by decide), if_pos trivial, if_neg hnot,
    sellLoop_exhaust row.price (d (normKey row.ticker)) (|row.qty|) hpos hlt]

/-- C10, witness for `C10_tolerance_fill`: 8 units are open and
8 + 1/2000000 (within the 0.000001 tolerance) are sold without an
error. -/
theorem C10_tolerance_fill_witness :
    normKey "SELL" = "SELL" ∧
    lotSum ((fun _ => [(⟨8, 5⟩ : Lot)] : Dict) (normKey "A")) < |(8 + 1/2000000 : ℚ)| ∧
    |(8 + 1/2000000 : ℚ)|
      ≤ lotSum ((fun _ => [(⟨8, 5⟩ : Lot)] : Dict) (normKey "A")) + 1/1000000 ∧
    step (fun _ => [(⟨8, 5⟩ : Lot)] : Dict) ⟨"SELL", "A", 8 + 1/2000000, 6, 0, 0⟩
      = (updateD (fun _ => [(⟨8, 5⟩ : Lot)] : Dict) (normKey "A") [],
         RCell.num (round2
           (((((fun _ => [(⟨8, 5⟩ : Lot)] : Dict) (normKey "A")).map
               fun l => ((6 : ℚ) - l.cost) * l.qty).sum) - 0))) :=
  ⟨by decide, by with_unfolding_all decide, by with_unfolding_all decide,
    C10_tolerance_fill (fun _ => [(⟨8, 5⟩ : Lot)] : Dict)
      ⟨"SELL", "A", 8 + 1/2000000, 6, 0, 0⟩ (by decide)
      (by with_unfolding_all decide) (by with_unfolding_all decide)
      (by with_unfolding_all decide)⟩

/-- C3, counterexample.  The claim states taxable =
max(0, net − carryforward − min(exemption, remaining net)).  The
aggregator has no carried-forward-losses input at all (its own header
comment reads `no carry-forward here`): with a net STOCK gain of 2000
and carried-forward losses of 2000 the claimed formula yields 0, but
the aggregator computes 2000 − 1270 = 730. -/
theorem C3_counterexample :
    (summarizeYear [⟨true, 2024, "STOCK", 2000⟩] 2024).stockTaxable = 730 ∧
    specCgtTaxable 2000 2000 = 0 ∧ decide ((730 : ℚ) = 0) = false := by
  refine ⟨?_, ?_, ?_⟩ <;> with_unfolding_all decide

/-- C3, amended: the aggregator supports no loss carryforward; its
STOCK (CGT) taxable equals the spec formula with carried-forward
losses fixed at zero — `max(0, net − min(1270, max(net, 0)))`, i.e.
the €1,270 exemption applied only to a positive net — and the tax due
is the taxable amount times 33%, rounded to 2 decimals.  A negative
net yields zero taxable and zero tax and is reported only in the
income column (there is no losses-to-carry-forward output). -/
theorem C3_cgt_formula :
    ∀ (rows : List TaxRow) (y : Int),
      (summarizeYear rows y).stockIncome = netCat rows y "STOCK" ∧
      (summarizeYear rows y).stockTaxable = specCgtTaxable (netCat rows y "STOCK") 0 ∧
      (summarizeYear rows y).stockTax
        = round2 ((summarizeYear rows y).stockTaxable * (33/100)) := by
  intro rows y
  refine ⟨rfl, ?_, rfl⟩
  show (if netCat rows y "STOCK" > 0 then max 0 (netCat rows y "STOCK" - 1270) else 0)
      = specCgtTaxable (netCat rows y "STOCK") 0
  exact cgtTaxable_eq_spec _

/-- C4: the ETF (Exit-Tax) bucket is netted within the regime only —
its taxable amount is the bucket's net floored at zero, with no
exemption subtracted (the taxable amount is never below the net), no
carryforward (only rows of the same year contribute), and the tax due
is the taxable amount times the flat 41% rate, rounded to 2
decimals. -/
theorem C4_exit_tax :
    ∀ (rows : List TaxRow) (y : Int),
      (summarizeYear rows y).etfTaxable = max 0 (netCat rows y "ETF") ∧
      (summarizeYear rows y).etfTax
        = round2 ((summarizeYear rows y).etfTaxable * (41/100)) ∧
      netCat rows y "ETF" ≤ (summarizeYear rows y).etfTaxable ∧
      netCat (rows.filter fun r => r.year == y) y "ETF" = netCat rows y "ETF" := by
  intro rows y
  refine ⟨rfl, rfl, le_max_right 0 _, ?_⟩
  apply netCat_filter
  intro r hr
  simp only [rowMatches, Bool.and_eq_true] at hr
  exact hr.1.2

/-- C5: regime isolation in the aggregator.  The STOCK (CGT) taxable
and tax computed from the full sheet coincide with those computed from
the STOCK rows alone, and the ETF (Exit-Tax) taxable and tax coincide
with those computed from the ETF rows alone — so ETF losses can never
reduce the CGT taxable gain and CGT losses can never reduce the
Exit-Tax taxable amount. -/
theorem C5_regime_isolation :
    ∀ (rows : List TaxRow) (y : Int),
      (summarizeYear rows y).stockTaxable
          = (summarizeYear (rows.filter fun r => normKey r.cat == "STOCK") y).stockTaxable ∧
      (summarizeYear rows y).stockTax
          = (summarizeYear (rows.filter fun r => normKey r.cat == "STOCK") y).stockTax ∧
      (summarizeYear rows y).etfTaxable
          = (summarizeYear (rows.filter fun r => normKey r.cat == "ETF") y).etfTaxable ∧
      (summarizeYear rows y).etfTax
          = (summarizeYear (rows.filter fun r => normKey r.cat == "ETF") y).etfTax := by
  intro rows y
  have hs : netCat (rows.filter fun r => normKey r.cat == "STOCK") y "STOCK"
      = netCat rows y "STOCK" := by
    apply netCat_filter
    intro r hr
    simp only [rowMatches, Bool.and_eq_true] at hr
    exact hr.2
  have he : netCat (rows.filter fun r => normKey r.cat == "ETF") y "ETF"
      = netCat rows y "ETF" := by
    apply netCat_filter
    intro r hr
    simp only [rowMatches, Bool.and_eq_true] at hr
    exact hr.2
  refine ⟨?_, ?_, ?_, ?_⟩ <;> simp only [summarizeYear, hs, he]

/-- C8, counterexample.  The claim states that no tax on dividends is
computed into the core's tax-due figure.  A single dividend row of 100
in 2024 yields a dividend tax of 40 (a flat 40% is applied), included
in the total tax due, which is 40, not 0; the sheet rows carry no
withholding-tax column at all. -/
theorem C8_counterexample :
    (summarizeYear [⟨true, 2024, "DIVIDEND", 100⟩] 2024).divTax = 40 ∧
    (summarizeYear [⟨true, 2024, "DIVIDEND", 100⟩] 2024).totalTax = 40 ∧
    decide ((40 : ℚ) = 0) = false := by
  refine ⟨?_, ?_, ?_⟩ <;> with_unfolding_all decide

/-- C8, amended: dividends are summed per year as gross income, and a
flat 40% tax on the positive net (rounded to 2 decimals) is computed
and included in the total tax due; no foreign-withholding credit is
tracked anywhere in the computation. -/
theorem C8_dividend_tax :
    ∀ (rows : List TaxRow) (y : Int),
      (summarizeYear rows y).divIncome = netCat rows y "DIVIDEND" ∧
      (summarizeYear rows y).divTax = round2 (max 0 (netCat rows y "DIVIDEND") * (40/100)) ∧
      (summarizeYear rows y).totalTax
        = (summarizeYear rows y).stockTax + (summarizeYear rows y).etfTax
          + (summarizeYear rows y).divTax + (summarizeYear rows y).depTax := by
  intro rows y
  exact ⟨rfl, rfl, rfl⟩

/-- A date does not precede another whose year it strictly dominates:
from `sdLe a b` the years are ordered. -/
lemma sdLe_year {a b : SDate} (h : sdLe a b = true) : a.y ≤ b.y := by
  simp only [sdLe, decide_eq_true_eq] at h
  rcases h with h | ⟨h, _⟩ <;> omega

/-- Every deemed disposal the scheduler emits keeps the lot's original
month and day and falls a positive multiple of 8 years after the lot's
original acquisition year. -/
lemma schedAux_mem (e : SDate) (mv : ℚ) : ∀ (n : Nat) (lot : ETLot) (dd : Deemed),
    dd ∈ (schedAux e mv n lot).1 →
    dd.date.m = lot.acq.m ∧ dd.date.d = lot.acq.d ∧
      ∃ k : Nat, 1 ≤ k ∧ dd.date.y = lot.acq.y + 8 * k := by
  intro n
  induction n with
  | zero => intro lot dd h; simp [schedAux] at h
  | succ n ih =>
    intro lot dd h
    simp only [schedAux] at h
    by_cases hc : sdLe (addYears 8 lot.acq) e = true
    · rw [if_pos hc] at h
      rcases List.mem_cons.mp h with h | h
      · subst h
        exact ⟨rfl, rfl, 1, le_refl 1, by simp [addYears]⟩
      · obtain ⟨hm, hd, k, hk, hy⟩ := ih _ dd h
        refine ⟨hm, hd, k + 1, by omega, ?_⟩
        simp only [addYears] at hy
        rw [hy]
        push_cast
        ring
    · rw [if_neg hc] at h
      simp at h

/-- With at least `(e.y + 8 − acq.y).toNat` rounds of fuel, the
scheduler leaves the lot with its next deemed-disposal date strictly
after the evaluation date. -/
lemma schedAux_final (e : SDate) (mv : ℚ) : ∀ (n : Nat) (lot : ETLot),
    (e.y + 8 - lot.acq.y).toNat ≤ n →
    sdLe (addYears 8 (schedAux e mv n lot).2.acq) e = false := by
  intro n
  induction n with
  | zero =>
    intro lot h
    have hy : e.y + 8 - lot.acq.y ≤ 0 := by omega
    simp only [schedAux]
    simp only [sdLe, addYears, decide_eq_false_iff_not]
    rintro (h' | ⟨h', _⟩) <;> omega
  | succ n ih =>
    intro lot h
    simp only [schedAux]
    by_cases hc : sdLe (addYears 8 lot.acq) e = true
    · rw [if_pos hc]
      apply ih
      have h8 := sdLe_year hc
      simp only [addYears] at h8
      show (e.y + 8 - (lot.acq.y + 8)).toNat ≤ n
      omega
    · rw [if_neg hc]
      exact Bool.not_eq_true _ ▸ Bool.of_not_eq_true hc

/-- A lot whose next deemed-disposal date lies after the evaluation
date is untouched by the scheduler loop, whatever the fuel. -/
lemma schedAux_noop (e : SDate) (mv : ℚ) (n : Nat) (lot : ETLot)
    (h : sdLe (addYears 8 lot.acq) e = false) :
    schedAux e mv n lot = ([], lot) := by
  cases n with
  | zero => rfl
  | succ n => simp [schedAux, h]

/-- C9 (the scheduler is absent from the sources and modelled from the
spec): every deemed disposal emitted by `runScheduler` is dated
exactly a whole number of 8-year cycles after the lot's acquisition
date — same month, same day, year advanced by 8·k for some k ≥ 1; the
first cycle is exactly `acquisition_date + 8 years` — and the
scheduler is idempotent: re-running it with the same evaluation date
on the updated lot emits no disposals and leaves the lot unchanged, so
totals are identical and no already-applied deemed disposal is
double-counted. -/
theorem C9_deemed_scheduler :
    ∀ (e : SDate) (mv : ℚ) (lot : ETLot),
      (∀ dd ∈ (runScheduler e mv lot).1,
        dd.date.m = lot.acq.m ∧ dd.date.d = lot.acq.d ∧
          ∃ k : Nat, 1 ≤ k ∧ dd.date.y = lot.acq.y + 8 * k) ∧
      runScheduler e mv (runScheduler e mv lot).2 = ([], (runScheduler e mv lot).2) := by
  intro e mv lot
  constructor
  · intro dd hdd
    exact schedAux_mem e mv _ lot dd hdd
  · have hfin := schedAux_final e mv _ lot (le_refl _)
    exact schedAux_noop e mv _ _ hfin

/-- C9, witness for `C9_deemed_scheduler` on the spec's §8 scenario:
a lot acquired 2016-05-01 evaluated on 2024-06-01 yields exactly one
deemed disposal, dated 2024-05-01 (= acquisition + 8 years), and a
second run on the updated lot emits nothing. -/
theorem C9_deemed_scheduler_witness :
    (⟨⟨2024, 5, 1⟩, 5⟩ : Deemed) ∈ (runScheduler ⟨2024, 6, 1⟩ 2 ⟨⟨2016, 5, 1⟩, 10, 15⟩).1 ∧
    ((⟨⟨2024, 5, 1⟩, 5⟩ : Deemed).date.m = (⟨⟨2016, 5, 1⟩, 10, 15⟩ : ETLot).acq.m ∧
      (⟨⟨2024, 5, 1⟩, 5⟩ : Deemed).date.d = (⟨⟨2016, 5, 1⟩, 10, 15⟩ : ETLot).acq.d) ∧
    runScheduler ⟨2024, 6, 1⟩ 2 ((runScheduler ⟨2024, 6, 1⟩ 2 ⟨⟨2016, 5, 1⟩, 10, 15⟩).2)
      = ([], (runScheduler ⟨2024, 6, 1⟩ 2 ⟨⟨2016, 5, 1⟩, 10, 15⟩).2) := by
  have hmem : (⟨⟨2024, 5, 1⟩, 5⟩ : Deemed)
      ∈ (runScheduler ⟨2024, 6, 1⟩ 2 ⟨⟨2016, 5, 1⟩, 10, 15⟩).1 := by
    with_unfolding_all decide
  have hth := C9_deemed_scheduler ⟨2024, 6, 1⟩ 2 ⟨⟨2016, 5, 1⟩, 10, 15⟩
  exact ⟨hmem, ⟨(hth.1 _ hmem).1, (hth.1 _ hmem).2.1⟩, hth.2⟩

end InvestCalc
